import Mathlib

/-!
A verification development for the expression evaluator of the
`graph_relation` core (`src/expr/eval.rs`): the postfix ("suffix-tree")
machine, its stackless fast path for programs of at most three units, the
translation from the wire form, and the surrounding error behavior.

The evaluator's collaborators that live outside the given sources
(the `dyn_type` value crate, `src/expr/error.rs`, the generated protobuf
types, and the graph element traits) are modelled from the specification;
each such definition is marked `Modelled from the spec:` in its doc
comment.  Rust panics (`assert!`, `unwrap`, `unreachable!`,
`unimplemented!`) are made explicit as a `panicked` outcome, and the
undefined behavior of the unchecked `std::mem::transmute` enum conversion
as an `undefinedBehavior` outcome, so that claims about "never panics"
and "rejects unknown codes" are statable.
-/

namespace GraphRelation

/-- Modelled from the spec: a tag naming a bound variable, either a name or a
small integer id (spec §3); the `NameOrId` type itself is not under the given
sources. -/
inductive NameOrId
  | name (s : String)
  | id (i : Int)
deriving DecidableEq

/-- Modelled from the spec: a property key, opaque to the evaluator (spec §3);
the `PropKey` type itself is not under the given sources. -/
structure PropKey where
  key : Int
deriving DecidableEq

/-- Euclid's algorithm on naturals, structurally recursive on an explicit
fuel so that it evaluates inside the kernel; the first argument strictly
decreases, so fuel `a + 1` always suffices. -/
def gcdFuel : Nat → Nat → Nat → Nat
  | 0, _, b => b
  | _ + 1, 0, b => b
  | fuel + 1, a, b => gcdFuel fuel (b % a) a

/-- Greatest common divisor via `gcdFuel`. -/
def natGcd (a b : Nat) : Nat := gcdFuel (a + 1) a b

/-- Modelled from the spec: exact rational carrier standing in for the F64
float subtype (spec §3).  Every float value a claim touches is an exact
rational, so the model stays faithful where it is used. -/
structure Frac where
  num : Int
  den : Nat
deriving DecidableEq

/-- Build a fraction in lowest terms; a zero denominator is junk and is
mapped to zero, and is never produced by the evaluator's operations. -/
def mkFrac (n : Int) (d : Nat) : Frac :=
  if d = 0 then ⟨0, 1⟩
  else
    let g := natGcd n.natAbs d
    ⟨n.tdiv (g : Int), d / g⟩

/-- The fraction of an integer. -/
def Frac.ofInt (i : Int) : Frac := ⟨i, 1⟩

/-- Addition of fractions. -/
def Frac.add (x y : Frac) : Frac :=
  mkFrac (x.num * (y.den : Int) + y.num * (x.den : Int)) (x.den * y.den)

/-- Subtraction of fractions. -/
def Frac.sub (x y : Frac) : Frac :=
  mkFrac (x.num * (y.den : Int) - y.num * (x.den : Int)) (x.den * y.den)

/-- Multiplication of fractions. -/
def Frac.mul (x y : Frac) : Frac := mkFrac (x.num * y.num) (x.den * y.den)

/-- Division of fractions; the caller rules a zero divisor out. -/
def Frac.div (x y : Frac) : Frac :=
  mkFrac (x.num * (y.den : Int) * (if y.num < 0 then -1 else 1)) (x.den * y.num.natAbs)

/-- A natural power of a fraction. -/
def Frac.powNat (x : Frac) (n : Nat) : Frac := mkFrac (x.num ^ n) (x.den ^ n)

/-- Whether a fraction is zero. -/
def Frac.isZero (x : Frac) : Bool := x.num == 0

/-- Value equality of fractions by cross-multiplication. -/
def Frac.eqb (x y : Frac) : Bool := x.num * (y.den : Int) == y.num * (x.den : Int)

/-- Strict value order of fractions by cross-multiplication. -/
def Frac.ltb (x y : Frac) : Bool := decide (x.num * (y.den : Int) < y.num * (x.den : Int))

/-- Non-strict value order of fractions by cross-multiplication. -/
def Frac.leb (x y : Frac) : Bool := decide (x.num * (y.den : Int) ≤ y.num * (x.den : Int))

/-- Truncation of a fraction toward zero. -/
def Frac.trunc (x : Frac) : Int := x.num.tdiv (x.den : Int)

/-- Modelled from the spec: the tagged numeric of `dyn_type` (spec §3).  The
integer subtypes I32/I64/U64 are merged into one mathematical integer, since
no claim distinguishes widths or overflow; F64 is modelled as an exact
rational, exact on every value the claims touch. -/
inductive Primitive
  | int (i : Int)
  | float (q : Frac)
deriving DecidableEq

/-- Numeric value of a primitive after promotion to float. -/
def Primitive.asF : Primitive → Frac
  | .int i => ⟨i, 1⟩
  | .float q => q

/-- Modelled from the spec: the dynamic value of `dyn_type` (spec §3):
`Null`, `Bool`, `Primitive`, `String`, `Blob`.  `Object` and its borrowed
view `BorrowObject` are identified, since borrowing is a memory-layout
matter with no observable difference at this level. -/
inductive Object
  | null
  | boolean (b : Bool)
  | primitive (p : Primitive)
  | str (s : String)
  | blob (bs : List Nat)
deriving DecidableEq

/-- Modelled from the spec: the run-time error taxonomy of
`src/expr/error.rs`, which is not under the given sources (spec §4.6). -/
inductive ExprError
  | emptyExpression
  | noneOperand
  | missingOperands
  | missingContext (msg : String)
  | typeMismatch (msg : String)
  | divisionByZero
  | unimplementedOp (msg : String)
  | invalidExpression (msg : String)
deriving DecidableEq

/-- Outcome of a run-time computation: a value, a structured error, or a Rust
panic (`assert!`, `unwrap`, `unreachable!`, `unimplemented!`). -/
inductive EvalResult (α : Type)
  | ok (a : α)
  | err (e : ExprError)
  | panicked
deriving DecidableEq

/-- Sequencing of fallible computations: the Rust `?` operator, with panics
propagated. -/
def EvalResult.bind {α β : Type} : EvalResult α → (α → EvalResult β) → EvalResult β
  | .ok a, f => f a
  | .err e, _ => .err e
  | .panicked, _ => .panicked

/-- Mapping over a successful outcome. -/
def EvalResult.map {α β : Type} (f : α → β) : EvalResult α → EvalResult β
  | .ok a => .ok (f a)
  | .err e => .err e
  | .panicked => .panicked

/-- Modelled from the spec: `as_primitive` of `dyn_type` (spec §4.1): booleans,
strings, blobs and null are rejected with a type mismatch. -/
def Object.as_primitive : Object → EvalResult Primitive
  | .primitive p => .ok p
  | _ => .err (.typeMismatch ("cannot cast the value to a primitive"))

/-- Modelled from the spec: `as_bool` of `dyn_type` (spec §4.1): a boolean is
itself, a number `n` is `n != 0`, anything else is rejected. -/
def Object.as_bool : Object → EvalResult Bool
  | .boolean b => .ok b
  | .primitive p => .ok (!p.asF.isZero)
  | _ => .err (.typeMismatch ("cannot cast the value to a bool"))

/-- Modelled from the spec: equality of `dyn_type` values (spec §4.1): numeric
after promotion, strings/blobs/booleans within their own kind, null equality
never true, remaining cross-type equality a type mismatch. -/
def obj_eq : Object → Object → EvalResult Bool
  | .null, _ => .ok false
  | _, .null => .ok false
  | .boolean x, .boolean y => .ok (x == y)
  | .primitive p, .primitive q => .ok (p.asF.eqb q.asF)
  | .str s, .str t => .ok (s == t)
  | .blob s, .blob t => .ok (s == t)
  | _, _ => .err (.typeMismatch ("cannot compare values of different types"))

/-- Lexicographic strict order on byte sequences. -/
def blob_lt : List Nat → List Nat → Bool
  | [], [] => false
  | [], _ :: _ => true
  | _ :: _, [] => false
  | x :: xs, y :: ys => x < y || (x == y && blob_lt xs ys)

/-- Modelled from the spec: the strict order on `dyn_type` values (spec §4.1):
numeric after promotion, strings and blobs lexicographic, booleans with
`false < true`, cross-type and null ordering a type mismatch. -/
def obj_lt : Object → Object → EvalResult Bool
  | .primitive p, .primitive q => .ok (p.asF.ltb q.asF)
  | .str s, .str t => .ok (decide (s < t))
  | .boolean x, .boolean y => .ok (!x && y)
  | .blob s, .blob t => .ok (blob_lt s t)
  | _, _ => .err (.typeMismatch ("cannot order values of different types"))

/-- Modelled from the spec: the non-strict order on `dyn_type` values,
agreeing with `obj_lt` and `obj_eq` on comparable values. -/
def obj_le : Object → Object → EvalResult Bool
  | .primitive p, .primitive q => .ok (p.asF.leb q.asF)
  | .str s, .str t => .ok (decide (s ≤ t))
  | .boolean x, .boolean y => .ok (!x || y)
  | .blob s, .blob t => .ok (blob_lt s t || s == t)
  | _, _ => .err (.typeMismatch ("cannot order values of different types"))

/-- The logical operator enumeration of `pb::Logical`
(src/expr/eval.rs, spec §2/§6). -/
inductive Logical
  | eq | ne | lt | le | gt | ge | and | or | not | within | without
deriving DecidableEq

/-- The arithmetic operator enumeration of `pb::Arithmetic`
(src/expr/eval.rs, spec §2/§6). -/
inductive Arithmetic
  | add | sub | mul | div | mod | exp
deriving DecidableEq

/-- Modelled from the spec: addition with promotion (spec §3):
integer-preserving when both sides are integers. -/
def prim_add : Primitive → Primitive → Primitive
  | .int x, .int y => .int (x + y)
  | p, q => .float (p.asF.add q.asF)

/-- Modelled from the spec: subtraction with promotion (spec §3). -/
def prim_sub : Primitive → Primitive → Primitive
  | .int x, .int y => .int (x - y)
  | p, q => .float (p.asF.sub q.asF)

/-- Modelled from the spec: multiplication with promotion (spec §3). -/
def prim_mul : Primitive → Primitive → Primitive
  | .int x, .int y => .int (x * y)
  | p, q => .float (p.asF.mul q.asF)

/-- Modelled from the spec: division (spec §3/§4.1): integer division
truncates toward zero, mixed division is float, a zero divisor yields
`DivisionByZero`. -/
def prim_div : Primitive → Primitive → EvalResult Primitive
  | .int x, .int y => if y = 0 then .err .divisionByZero else .ok (.int (x.tdiv y))
  | p, q =>
    if q.asF.isZero then .err .divisionByZero else .ok (.float (p.asF.div q.asF))

/-- Modelled from the spec: remainder (spec §4.1): truncated remainder on
integers, the float remainder `a - b * trunc(a / b)` otherwise, a zero
divisor yields `DivisionByZero`. -/
def prim_mod : Primitive → Primitive → EvalResult Primitive
  | .int x, .int y => if y = 0 then .err .divisionByZero else .ok (.int (x.tmod y))
  | p, q =>
    if q.asF.isZero then .err .divisionByZero
    else .ok (.float (p.asF.sub (q.asF.mul (Frac.ofInt ((p.asF.div q.asF).trunc)))))

/-- Modelled from the spec: exponentiation `exp(base, e)` (spec §4.1):
integer-preserving for a nonnegative integer exponent, a negative integer
exponent promotes to float (`7 ^ -3` is the float `1/343`).  A float
exponent with an integral value behaves like the integer; a genuinely
non-integral float exponent is true floating-point `powf`, which is outside
this model and is mapped to float `0` — no claim touches it. -/
def prim_exp : Primitive → Primitive → Primitive
  | .int x, .int y =>
    if 0 ≤ y then .int (x ^ y.toNat)
    else .float ((Frac.ofInt 1).div (Frac.ofInt (x ^ (-y).toNat)))
  | p, q =>
    let b := p.asF
    let e := q.asF
    if e.den = 1 then
      if 0 ≤ e.num then .float (b.powNat e.num.toNat)
      else .float ((Frac.ofInt 1).div (b.powNat (-e.num).toNat))
    else .float (Frac.ofInt 0)

/-- Modelled from the spec: the graph element interface the evaluator uses
(spec §4.4): an intrinsic value view and an optional property bag; the bag is
its lookup function. -/
structure Element where
  as_borrow_object : Object
  details : Option (PropKey → Option Object)

/-- Modelled from the spec: the context capability (spec §4.4), identified
with the single lookup `get : tag → Option Element` it provides. -/
def Context := NameOrId → Option Element

/-- The provided empty context: `None` for every tag (src/expr/eval.rs,
`NoneContext`). -/
def NoneContext : Context := fun _ => none

/-- The inner representation of a program unit (src/expr/eval.rs,
`InnerOpr`). -/
inductive InnerOpr
  | logical (l : Logical)
  | arith (a : Arithmetic)
  | const (c : Option Object)
  | var (tag : NameOrId) (prop_key : Option PropKey)
deriving DecidableEq

/-- `InnerOpr::is_operand` (src/expr/eval.rs): constants and variables are
operands, operators are not. -/
def InnerOpr.is_operand : InnerOpr → Bool
  | .const _ => true
  | .var _ _ => true
  | _ => false

/-- Whether a unit is a variable reference. -/
def InnerOpr.is_var : InnerOpr → Bool
  | .var _ _ => true
  | _ => false

/-- `InnerOpr::eval_as_borrow_object` (src/expr/eval.rs): a constant yields
its optional value; a variable consults the context — with a property key it
needs the element and its property bag, without one it yields the element's
own value view; every fall-through is the `MissingContext` error; operator
units yield `Ok(None)`. -/
def InnerOpr.eval_as_borrow_object (opr : InnerOpr) (context : Option Context) :
    EvalResult (Option Object) :=
  match opr with
  | .const c => .ok c
  | .var tag prop_key =>
    match context with
    | some ctxt =>
      match prop_key with
      | some property =>
        match ctxt tag with
        | some element =>
          match element.details with
          | some d => .ok (d property)
          | none => .err (.missingContext ("missing context for evaluating variables"))
        | none => .err (.missingContext ("missing context for evaluating variables"))
      | none =>
        match ctxt tag with
        | some field => .ok (some field.as_borrow_object)
        | none => .err (.missingContext ("missing context for evaluating variables"))
    | none => .err (.missingContext ("missing context for evaluating variables"))
  | _ => .ok none

/-- `apply_arith` (src/expr/eval.rs): both operands must be present, both are
cast to primitives (left first), then the arithmetic is applied with
promotion. -/
def apply_arith (arith : Arithmetic) (first second : Option Object) : EvalResult Object :=
  match first, second with
  | some a, some b =>
    EvalResult.bind a.as_primitive fun p =>
    EvalResult.bind b.as_primitive fun q =>
    match arith with
    | .add => .ok (.primitive (prim_add p q))
    | .sub => .ok (.primitive (prim_sub p q))
    | .mul => .ok (.primitive (prim_mul p q))
    | .div => (prim_div p q).map .primitive
    | .mod => (prim_mod p q).map .primitive
    | .exp => .ok (.primitive (prim_exp p q))
  | _, _ => .err .missingOperands

/-- `apply_logical` (src/expr/eval.rs): `Not` needs one operand, the rest two;
`And`/`Or` short-circuit on the first operand's boolean; `Within`/`Without`
hit the `unimplemented!` macro, i.e. a panic (the `Not` arm of the binary
match is the `unreachable!` panic, guarded away by the outer test); a missing
operand falls through to `MissingOperands`. -/
def apply_logical (logical : Logical) (first second : Option Object) : EvalResult Object :=
  if logical = .not then
    match first with
    | some a => a.as_bool.map (fun b => Object.boolean (!b))
    | none => .err .missingOperands
  else
    match first, second with
    | some a, some b =>
      match logical with
      | .eq => (obj_eq a b).map .boolean
      | .ne => (obj_eq a b).map (fun r => Object.boolean (!r))
      | .lt => (obj_lt a b).map .boolean
      | .le => (obj_le a b).map .boolean
      | .gt => (obj_lt b a).map .boolean
      | .ge => (obj_le b a).map .boolean
      | .and =>
        EvalResult.bind a.as_bool fun x =>
        if x then b.as_bool.map .boolean else .ok (.boolean false)
      | .or =>
        EvalResult.bind a.as_bool fun x =>
        if x then .ok (.boolean true) else b.as_bool.map .boolean
      | .not => .panicked
      | .within => .panicked
      | .without => .panicked
    | _, _ => .err .missingOperands

/-- `Evaluator::eval_without_stack` (src/expr/eval.rs): the stackless fast
path for programs of at most three units — empty program, single operand,
`[unit, logical]`, `[unit, unit, logical-or-arith]`; every other shape is the
`invalid expression` error; the guarding `assert!` makes a longer program a
panic. -/
def eval_without_stack (suffix_tree : List InnerOpr) (context : Option Context) :
    EvalResult Object :=
  match suffix_tree with
  | [] => .err .emptyExpression
  | [u0] =>
    EvalResult.bind (u0.eval_as_borrow_object context) fun o =>
    match o with
    | some v => .ok v
    | none => .err .noneOperand
  | [u0, u1] =>
    match u1 with
    | .logical logical =>
      EvalResult.bind (u0.eval_as_borrow_object context) fun o0 =>
      apply_logical logical o0 none
    | _ => .err (.invalidExpression ("invalid expression"))
  | [u0, u1, u2] =>
    match u2 with
    | .logical logical =>
      EvalResult.bind (u0.eval_as_borrow_object context) fun o0 =>
      EvalResult.bind (u1.eval_as_borrow_object context) fun o1 =>
      apply_logical logical o0 o1
    | .arith arith =>
      EvalResult.bind (u0.eval_as_borrow_object context) fun o0 =>
      EvalResult.bind (u1.eval_as_borrow_object context) fun o1 =>
      apply_arith arith o0 o1
    | _ => .err (.invalidExpression ("invalid expression"))
  | _ => .panicked

/-- Outcome of one step of the general walk: continue with the new stack, or
halt with an error or a panic, recording the stack as the early `return`
leaves it. -/
inductive StepRes
  | cont (stack : List Object)
  | fail (e : ExprError) (stack : List Object)
  | panicked (stack : List Object)
deriving DecidableEq

/-- Pushing an operator's outcome (src/expr/eval.rs, the `stack.push(rst)`
after `apply_*`): the remaining stack already reflects the pops. -/
def push_result : EvalResult Object → List Object → StepRes
  | .ok r, rest => .cont (r :: rest)
  | .err e, rest => .fail e rest
  | .panicked, rest => .panicked rest

/-- One iteration of the general walk of `Evaluator::eval`
(src/expr/eval.rs): an operand is resolved and pushed (an absent value is
`NoneOperand`); an operator pops once as `first` and — except for `Not` —
pops again as `second`, then applies with `(second, first)`; the stack's head
is its top. -/
def eval_step (context : Option Context) (stack : List Object) (opr : InnerOpr) : StepRes :=
  if opr.is_operand then
    match opr.eval_as_borrow_object context with
    | .ok (some obj) => .cont (obj :: stack)
    | .ok none => .fail .noneOperand stack
    | .err e => .fail e stack
    | .panicked => .panicked stack
  else
    match opr with
    | .logical logical =>
      if logical = .not then
        push_result (apply_logical logical stack.head? none) stack.tail
      else
        push_result (apply_logical logical stack.tail.head? stack.head?) stack.tail.tail
    | .arith arith =>
      push_result (apply_arith arith stack.tail.head? stack.head?) stack.tail.tail
    | _ => .panicked stack

/-- The general stack-walking path of `Evaluator::eval` (src/expr/eval.rs,
the loop after `stack.clear()`): walk the units, then demand a single value
on the stack, popping it; any other final stack is the `invalid expression`
error, returned with the stack as it stands. -/
def eval_units (context : Option Context) :
    List InnerOpr → List Object → EvalResult Object × List Object
  | [], stack =>
    match stack with
    | [top] => (.ok top, [])
    | _ => (.err (.invalidExpression ("invalid expression")), stack)
  | opr :: rest, stack =>
    match eval_step context stack opr with
    | .cont s => eval_units context rest s
    | .fail e s => (.err e, s)
    | .panicked s => (.panicked, s)

/-- The evaluator (src/expr/eval.rs, `Evaluator`): the compiled suffix tree
and the reusable scratch stack. -/
structure Evaluator where
  suffix_tree : List InnerOpr
  stack : List Object
deriving DecidableEq

/-- `Evaluator::reset` (src/expr/eval.rs): clear the scratch stack. -/
def Evaluator.reset (e : Evaluator) : Evaluator := { e with stack := [] }

/-- `Evaluator::eval` (src/expr/eval.rs): a program of at most three units is
dispatched to the stackless fast path, leaving the scratch stack untouched;
a longer program clears the stack and runs the general walk.  The returned
pair is the evaluation outcome and the scratch stack after the call. -/
def Evaluator.eval (e : Evaluator) (context : Option Context) :
    EvalResult Object × List Object :=
  if e.suffix_tree.length ≤ 3 then
    (eval_without_stack e.suffix_tree context, e.stack)
  else
    eval_units context e.suffix_tree []

/-- Modelled from the spec: the wire form of a tag (spec §6); the protobuf
types are generated code outside the given sources. -/
inductive PbNameOrId
  | name (s : String)
  | id (i : Int)
deriving DecidableEq

/-- Modelled from the spec: the wire form of a property key, opaque
(spec §3/§6). -/
structure PbProperty where
  key : Int
deriving DecidableEq

/-- Modelled from the spec: the one-of payload of a wire constant
(spec §6). -/
inductive PbValueItem
  | vbool (b : Bool)
  | vi32 (i : Int)
  | vi64 (i : Int)
  | vf64 (q : Frac)
  | vstr (s : String)
  | vblob (bs : List Nat)
  | vnone
  | vi32Array (l : List Int)
  | vi64Array (l : List Int)
  | vf64Array (l : List Frac)
  | vstrArray (l : List String)
deriving DecidableEq

/-- Modelled from the spec: a wire value, its payload optional (spec §6). -/
structure PbValue where
  item : Option PbValueItem
deriving DecidableEq

/-- Modelled from the spec: a wire constant, its value optional (spec §6). -/
structure PbConst where
  value : Option PbValue
deriving DecidableEq

/-- Modelled from the spec: a wire variable: an optional tag and an optional
property key (spec §6). -/
structure PbVar where
  tag : Option PbNameOrId
  property : Option PbProperty
deriving DecidableEq

/-- Modelled from the spec: the one-of payload of a wire expression unit
(spec §6); the operator codes travel as raw `int32`. -/
inductive PbItem
  | logical (code : Int)
  | arith (code : Int)
  | const (c : PbConst)
  | var (v : PbVar)
deriving DecidableEq

/-- Modelled from the spec: a wire expression unit, its payload optional
(spec §6). -/
structure ExprUnit where
  item : Option PbItem
deriving DecidableEq

/-- The program-construction error of src/error.rs (`ParsePbError`). -/
inductive ParsePbError
  | invalidPb (s : String)
deriving DecidableEq

/-- Outcome of program construction: a value, a structured error, a Rust
panic, or the undefined behavior of an invalid `transmute`. -/
inductive PbResult (α : Type)
  | ok (a : α)
  | err (e : ParsePbError)
  | panicked
  | undefinedBehavior
deriving DecidableEq

/-- Sequencing of construction steps, propagating errors, panics and
undefined behavior. -/
def PbResult.bind {α β : Type} : PbResult α → (α → PbResult β) → PbResult β
  | .ok a, f => f a
  | .err e, _ => .err e
  | .panicked, _ => .panicked
  | .undefinedBehavior, _ => .undefinedBehavior

/-- Mapping over a successful construction step. -/
def PbResult.map {α β : Type} (f : α → β) : PbResult α → PbResult β
  | .ok a => .ok (f a)
  | .err e => .err e
  | .panicked => .panicked
  | .undefinedBehavior => .undefinedBehavior

/-- The unchecked `std::mem::transmute` of a raw `int32` logical code
(src/expr/eval.rs, `InnerOpr::from_pb`): the discriminants Eq=0 … Without=10
come back as the enum; any other code is undefined behavior, not an error. -/
def transmute_logical (code : Int) : PbResult Logical :=
  if code = 0 then .ok .eq
  else if code = 1 then .ok .ne
  else if code = 2 then .ok .lt
  else if code = 3 then .ok .le
  else if code = 4 then .ok .gt
  else if code = 5 then .ok .ge
  else if code = 6 then .ok .and
  else if code = 7 then .ok .or
  else if code = 8 then .ok .not
  else if code = 9 then .ok .within
  else if code = 10 then .ok .without
  else .undefinedBehavior

/-- The unchecked `std::mem::transmute` of a raw `int32` arithmetic code
(src/expr/eval.rs, `InnerOpr::from_pb`): Add=0, Sub=1, Mul=2, Div=3, Exp=4,
Mod=5; any other code is undefined behavior, not an error. -/
def transmute_arith (code : Int) : PbResult Arithmetic :=
  if code = 0 then .ok .add
  else if code = 1 then .ok .sub
  else if code = 2 then .ok .mul
  else if code = 3 then .ok .div
  else if code = 4 then .ok .exp
  else if code = 5 then .ok .mod
  else .undefinedBehavior

/-- Modelled from the spec: `NameOrId::from_pb` (spec §6), a one-to-one
translation of the tag's one-of; the function itself is not under the given
sources. -/
def NameOrId.from_pb : PbNameOrId → PbResult NameOrId
  | .name s => .ok (.name s)
  | .id i => .ok (.id i)

/-- Modelled from the spec: `PropKey::from_pb` (spec §3/§6), a translation of
the opaque wire property key; the function itself is not under the given
sources. -/
def PropKey.from_pb (p : PbProperty) : PbResult PropKey := .ok ⟨p.key⟩

/-- `pb::Const::into_object` (src/expr/eval.rs): scalars become values, the
wire `None` becomes the absent constant, the array variants are rejected, a
missing value or payload is the `empty value provided` error. -/
def PbConst.into_object (c : PbConst) : PbResult (Option Object) :=
  match c.value with
  | some val =>
    match val.item with
    | some item =>
      match item with
      | .vbool b => .ok (some (.boolean b))
      | .vi32 i => .ok (some (.primitive (.int i)))
      | .vi64 i => .ok (some (.primitive (.int i)))
      | .vf64 q => .ok (some (.primitive (.float q)))
      | .vstr s => .ok (some (.str s))
      | .vblob bs => .ok (some (.blob bs))
      | .vnone => .ok none
      | _ =>
        .err (.invalidPb
          ("the const values of I32Array, I64Array, F64Array, StrArray are unsupported"))
    | none => .err (.invalidPb ("empty value provided"))
  | none => .err (.invalidPb ("empty value provided"))

/-- `InnerOpr::from_pb` (src/expr/eval.rs): operator codes are transmuted
unchecked; a constant goes through `into_object`; a variable unwraps its tag
— a panic when the tag is absent — and optionally translates the property
key; a unit with no payload is the `empty value provided` error. -/
def InnerOpr.from_pb (unit : ExprUnit) : PbResult InnerOpr :=
  match unit.item with
  | some item =>
    match item with
    | .logical code => (transmute_logical code).map .logical
    | .arith code => (transmute_arith code).map .arith
    | .const c => c.into_object.map .const
    | .var v =>
      match v.tag with
      | none => .panicked
      | some t =>
        PbResult.bind (NameOrId.from_pb t) fun tag =>
        match v.property with
        | some property => (PropKey.from_pb property).map (fun pk => .var tag (some pk))
        | none => .ok (.var tag none)
  | none => .err (.invalidPb ("empty value provided"))

/-- The unit-by-unit translation loop of `Evaluator::from_pb`
(src/expr/eval.rs): the first failing unit decides the outcome. -/
def from_pb_units : List ExprUnit → PbResult (List InnerOpr)
  | [] => .ok []
  | u :: rest =>
    PbResult.bind (InnerOpr.from_pb u) fun opr =>
    PbResult.bind (from_pb_units rest) fun oprs =>
    .ok (opr :: oprs)

/-- `Evaluator::from_pb` (src/expr/eval.rs): translate every unit, start with
an empty scratch stack. -/
def Evaluator.from_pb (suffix_tree : List ExprUnit) : PbResult Evaluator :=
  (from_pb_units suffix_tree).map (fun t => { suffix_tree := t, stack := [] })

/-- Shorthand for an integer constant unit, as produced by the compiler for
an integer literal. -/
def cInt (i : Int) : InnerOpr := .const (some (.primitive (.int i)))

/-- A context binding tag id 0 to an element that has an intrinsic value but
no property bag. -/
def ctx_no_details : Context :=
  fun t =>
    if t = .id 0 then some { as_borrow_object := .primitive (.int 1), details := none }
    else none

/-- A context binding tag id 0 to an element whose property bag holds the
value 42 at key 5 and nothing else. -/
def ctx_with_bag : Context :=
  fun t =>
    if t = .id 0 then
      some { as_borrow_object := .primitive (.int 1),
             details := some (fun pk => if pk = ⟨5⟩ then some (.primitive (.int 42)) else none) }
    else none

theorem eval_fast (tree : List InnerOpr) (s : List Object) (context : Option Context)
    (h : tree.length ≤ 3) :
    Evaluator.eval ⟨tree, s⟩ context = (eval_without_stack tree context, s) := by
  simp [Evaluator.eval, h]

theorem operand_of_ne (u : InnerOpr) (context : Option Context)
    (h : u.eval_as_borrow_object context ≠ .ok none) : u.is_operand = true := by
  cases u with
  | logical l => exact absurd rfl h
  | arith a => exact absurd rfl h
  | const c0 => rfl
  | var t p => rfl

theorem eval_abo_ctx_free (u : InnerOpr) (h : u.is_var = false)
    (c c' : Option Context) :
    u.eval_as_borrow_object c = u.eval_as_borrow_object c' := by
  cases u with
  | var t p => simp [InnerOpr.is_var] at h
  | logical l => rfl
  | arith a => rfl
  | const c0 => rfl

theorem eval_step_ctx_free (u : InnerOpr) (h : u.is_var = false)
    (c c' : Option Context) (stack : List Object) :
    eval_step c stack u = eval_step c' stack u := by
  cases u with
  | var t p => simp [InnerOpr.is_var] at h
  | logical l => rfl
  | arith a => rfl
  | const c0 => rfl

theorem eval_units_ctx_free (c c' : Option Context) (tree : List InnerOpr)
    (h : ∀ u ∈ tree, u.is_var = false) :
    ∀ stack : List Object, eval_units c tree stack = eval_units c' tree stack := by
  induction tree with
  | nil => intro stack; rfl
  | cons u rest ih =>
    intro stack
    have hu : u.is_var = false := h u (by simp)
    have hr : ∀ v ∈ rest, v.is_var = false := fun v hv => h v (by simp [hv])
    cases hstep : eval_step c' stack u with
    | cont s =>
      simp only [eval_units, eval_step_ctx_free u hu c c' stack, hstep]
      exact ih hr s
    | fail e s => simp only [eval_units, eval_step_ctx_free u hu c c' stack, hstep]
    | panicked s => simp only [eval_units, eval_step_ctx_free u hu c c' stack, hstep]

theorem eval_without_stack_ctx_free (c c' : Option Context) (tree : List InnerOpr)
    (h : ∀ u ∈ tree, u.is_var = false) :
    eval_without_stack tree c = eval_without_stack tree c' := by
  cases tree with
  | nil => rfl
  | cons u0 t0 =>
    have h0 : u0.is_var = false := h u0 (by simp)
    cases t0 with
    | nil => simp only [eval_without_stack, eval_abo_ctx_free u0 h0 c c']
    | cons u1 t1 =>
      have h1 : u1.is_var = false := h u1 (by simp)
      cases t1 with
      | nil =>
        cases u1 with
        | logical l => simp only [eval_without_stack, eval_abo_ctx_free u0 h0 c c']
        | arith a => rfl
        | const c0 => rfl
        | var t p => simp [InnerOpr.is_var] at h1
      | cons u2 t2 =>
        have h2 : u2.is_var = false := h u2 (by simp)
        cases t2 with
        | nil =>
          cases u2 with
          | logical l =>
            simp only [eval_without_stack, eval_abo_ctx_free u0 h0 c c',
              eval_abo_ctx_free u1 h1 c c']
          | arith a =>
            simp only [eval_without_stack, eval_abo_ctx_free u0 h0 c c',
              eval_abo_ctx_free u1 h1 c c']
          | const c0 => rfl
          | var t p => simp [InnerOpr.is_var] at h2
        | cons u3 t3 => rfl

theorem eval_step_operand (context : Option Context) (stack : List Object) (u : InnerOpr)
    (hu : u.is_operand = true) :
    eval_step context stack u =
      match u.eval_as_borrow_object context with
      | .ok (some obj) => .cont (obj :: stack)
      | .ok none => .fail .noneOperand stack
      | .err e => .fail e stack
      | .panicked => .panicked stack := by
  simp [eval_step, hu]

theorem eval_step_not (context : Option Context) (stack : List Object) :
    eval_step context stack (.logical .not)
      = push_result (apply_logical .not stack.head? none) stack.tail := by
  simp [eval_step, InnerOpr.is_operand]

theorem eval_step_logical (context : Option Context) (stack : List Object) (l : Logical)
    (hl : l ≠ .not) :
    eval_step context stack (.logical l)
      = push_result (apply_logical l stack.tail.head? stack.head?) stack.tail.tail := by
  simp [eval_step, InnerOpr.is_operand, hl]

theorem eval_step_arith (context : Option Context) (stack : List Object) (a : Arithmetic) :
    eval_step context stack (.arith a)
      = push_result (apply_arith a stack.tail.head? stack.head?) stack.tail.tail := by
  simp [eval_step, InnerOpr.is_operand]

theorem eval_units_ok_stack_empty (context : Option Context) (tree : List InnerOpr) :
    ∀ (stack : List Object) (v : Object) (s2 : List Object),
      eval_units context tree stack = (.ok v, s2) → s2 = [] := by
  induction tree with
  | nil =>
    intro stack v s2 h
    cases stack with
    | nil => simp [eval_units] at h
    | cons a t =>
      cases t with
      | nil => simp [eval_units] at h; exact h.2
      | cons b t2 => simp [eval_units] at h
  | cons u rest ih =>
    intro stack v s2 h
    simp only [eval_units] at h
    cases hstep : eval_step context stack u with
    | cont s =>
      simp only [hstep] at h
      exact ih s v s2 h
    | fail e s => simp only [hstep] at h; simp at h
    | panicked s => simp only [hstep] at h; simp at h

/-- C1 (counterexample): a `Var` with a property key whose tag resolves to an
element without a property bag makes `eval` fail with `MissingContext`, not
with `NoneOperand` as the claim states. -/
theorem c1_counterexample :
    (Evaluator.eval ⟨[.var (.id 0) (some ⟨5⟩)], []⟩ (some ctx_no_details)).1
        = .err (.missingContext ("missing context for evaluating variables"))
    ∧ (Evaluator.eval ⟨[.var (.id 0) (some ⟨5⟩)], []⟩ (some ctx_no_details)).1
        ≠ .err .noneOperand := by
  constructor
  · decide
  · decide

/-- C1 (amended): a resolved element without a property bag — like an unbound
tag — fails with `MissingContext`; `NoneOperand` arises from an absent value
reached through a successful lookup: a present bag lacking the key, or the
explicit null constant. -/
theorem c1_amended :
    (∀ (ctxt : Context) (tag : NameOrId) (pk : PropKey) (el : Element),
      ctxt tag = some el → el.details = none →
      (Evaluator.eval ⟨[.var tag (some pk)], []⟩ (some ctxt)).1
        = .err (.missingContext ("missing context for evaluating variables")))
    ∧ (∀ context : Option Context,
      (Evaluator.eval ⟨[.const none], []⟩ context).1 = .err .noneOperand)
    ∧ (∀ (ctxt : Context) (tag : NameOrId) (pk : PropKey) (el : Element)
        (bag : PropKey → Option Object),
      ctxt tag = some el → el.details = some bag → bag pk = none →
      (Evaluator.eval ⟨[.var tag (some pk)], []⟩ (some ctxt)).1 = .err .noneOperand)
    ∧ (∀ (ctxt : Context) (tag : NameOrId) (pk : Option PropKey),
      ctxt tag = none →
      (Evaluator.eval ⟨[.var tag pk], []⟩ (some ctxt)).1
        = .err (.missingContext ("missing context for evaluating variables"))) := by
  refine ⟨?_, ?_, ?_, ?_⟩
  · intro ctxt tag pk el h1 h2
    rw [eval_fast _ _ _ (by simp)]
    simp [eval_without_stack, InnerOpr.eval_as_borrow_object, h1, h2, EvalResult.bind]
  · intro context
    rw [eval_fast _ _ _ (by simp)]
    simp [eval_without_stack, InnerOpr.eval_as_borrow_object, EvalResult.bind]
  · intro ctxt tag pk el bag h1 h2 h3
    rw [eval_fast _ _ _ (by simp)]
    simp [eval_without_stack, InnerOpr.eval_as_borrow_object, h1, h2, h3, EvalResult.bind]
  · intro ctxt tag pk h1
    rw [eval_fast _ _ _ (by simp)]
    cases pk with
    | some property =>
      simp [eval_without_stack, InnerOpr.eval_as_borrow_object, h1, EvalResult.bind]
    | none =>
      simp [eval_without_stack, InnerOpr.eval_as_borrow_object, h1, EvalResult.bind]

/-- C1 (witness): the amended theorem applied to the empty context and a
concrete variable unit. -/
theorem c1_witness :
    (Evaluator.eval ⟨[.var (.id 0) (some ⟨7⟩)], []⟩ (some NoneContext)).1
      = .err (.missingContext ("missing context for evaluating variables")) :=
c1_amended.2.2.2 NoneContext (.id 0) (some ⟨7⟩) rfl

/-- C2: applying `Within` to two present operands does not return the
`Unimplemented` error — the evaluation hits the `unimplemented!` macro and
panics, contradicting the claim that it returns a structured error and never
panics. -/
theorem c2_panic :
    Evaluator.eval ⟨[cInt 1, cInt 2, .logical .within], []⟩ none = (.panicked, [])
    ∧ Evaluator.eval ⟨[cInt 1, cInt 2, .logical .without], []⟩ none = (.panicked, []) := by
  constructor
  · decide
  · decide

/-- C3 (counterexample): a `Var` wire unit with an absent tag makes program
construction panic (the `unwrap` of the tag), not return an
`InvalidProgram` error. -/
theorem c3_counterexample :
    InnerOpr.from_pb ⟨some (.var ⟨none, none⟩)⟩ = .panicked
    ∧ InnerOpr.from_pb ⟨some (.var ⟨none, none⟩)⟩ ≠ .err (.invalidPb ("missing tag")) := by
  constructor
  · decide
  · decide

/-- C3 (amended): construction yields structured errors for an empty unit,
but it is not total: an absent tag on a `Var` unit panics, and an
unrecognized logical or arithmetic code is reinterpreted unchecked —
undefined behavior, not a structured rejection. -/
theorem c3_amended :
    InnerOpr.from_pb ⟨some (.var ⟨none, none⟩)⟩ = .panicked
    ∧ Evaluator.from_pb [⟨some (.var ⟨none, none⟩)⟩] = .panicked
    ∧ InnerOpr.from_pb ⟨some (.logical 99)⟩ = .undefinedBehavior
    ∧ InnerOpr.from_pb ⟨some (.arith 99)⟩ = .undefinedBehavior
    ∧ InnerOpr.from_pb ⟨none⟩ = .err (.invalidPb ("empty value provided")) := by
  refine ⟨?_, ?_, ?_, ?_, ?_⟩
  · decide
  · decide
  · decide
  · decide
  · decide

/-- C4 (counterexample): an ill-formed four-unit program fails on the general
path and leaves two operands on the scratch stack — the stack is not cleared
on the error path, so its size after `eval` is not zero. -/
theorem c4_counterexample :
    Evaluator.eval ⟨[cInt 1, cInt 2, cInt 3, .arith .add], []⟩ none
      = (.err (.invalidExpression ("invalid expression")),
         [.primitive (.int 5), .primitive (.int 1)])
    ∧ (Evaluator.eval ⟨[cInt 1, cInt 2, cInt 3, .arith .add], []⟩ none).2.length = 2 := by
  constructor
  · decide
  · decide

/-- C4 (amended): starting from an empty scratch stack, a successful `eval`
leaves the stack empty; a failed general-path `eval` may leave operands
behind, which are only discarded at the start of the next general-path
`eval` or by `reset`. -/
theorem c4_amended (tree : List InnerOpr) (context : Option Context) (v : Object)
    (s2 : List Object) (h : Evaluator.eval ⟨tree, []⟩ context = (.ok v, s2)) :
    s2 = [] := by
  by_cases hl : tree.length ≤ 3
  · rw [eval_fast tree [] context hl] at h
    exact (congrArg Prod.snd h).symm
  · have hgen : Evaluator.eval ⟨tree, []⟩ context = eval_units context tree [] := by
      simp [Evaluator.eval, hl]
    rw [hgen] at h
    exact eval_units_ok_stack_empty context tree [] v s2 h

/-- C4 (witness): the amended theorem applied to a concrete successful
evaluation. -/
theorem c4_witness : (Evaluator.eval ⟨[cInt 5], []⟩ none).2 = [] :=
c4_amended [cInt 5] none (.primitive (.int 5)) (Evaluator.eval ⟨[cInt 5], []⟩ none).2
  (by decide)

/-- C5 (counterexample): on the empty program the fast path returns
`EmptyExpression` while the general stack-walking path returns
`InvalidExpression` — the two paths do not produce the same error kind. -/
theorem c5_counterexample :
    eval_without_stack [] none = .err .emptyExpression
    ∧ (eval_units none [] []).1 = .err (.invalidExpression ("invalid expression"))
    ∧ eval_without_stack [] none ≠ (eval_units none [] []).1 := by
  refine ⟨?_, ?_, ?_⟩
  · decide
  · decide
  · decide

/-- C5 (amended): the fast path and the general path agree on programs of at
most three units of valid shape — a single operand, `[operand, Not]`, or
`[operand, operand, binary operator]` — whenever every operand resolves to a
present value or to an error; when an operand resolves to an absent value,
or the shape is another one, the two paths may differ in error kind. -/
theorem c5_amended (context : Option Context) :
    (∀ u : InnerOpr, u.is_operand = true →
      eval_without_stack [u] context = (eval_units context [u] []).1)
    ∧ (∀ u0 : InnerOpr, u0.eval_as_borrow_object context ≠ .ok none →
      eval_without_stack [u0, .logical .not] context
        = (eval_units context [u0, .logical .not] []).1)
    ∧ (∀ (u0 u1 : InnerOpr) (l : Logical), l ≠ .not →
      u0.eval_as_borrow_object context ≠ .ok none →
      u1.eval_as_borrow_object context ≠ .ok none →
      eval_without_stack [u0, u1, .logical l] context
        = (eval_units context [u0, u1, .logical l] []).1)
    ∧ (∀ (u0 u1 : InnerOpr) (a : Arithmetic),
      u0.eval_as_borrow_object context ≠ .ok none →
      u1.eval_as_borrow_object context ≠ .ok none →
      eval_without_stack [u0, u1, .arith a] context
        = (eval_units context [u0, u1, .arith a] []).1) := by
  refine ⟨?_, ?_, ?_, ?_⟩
  · intro u hu
    cases habo : u.eval_as_borrow_object context with
    | ok o =>
      cases o with
      | some v =>
        simp [eval_without_stack, eval_units, eval_step_operand context [] u hu, habo,
          EvalResult.bind]
      | none =>
        simp [eval_without_stack, eval_units, eval_step_operand context [] u hu, habo,
          EvalResult.bind]
    | err e =>
      simp [eval_without_stack, eval_units, eval_step_operand context [] u hu, habo,
        EvalResult.bind]
    | panicked =>
      simp [eval_without_stack, eval_units, eval_step_operand context [] u hu, habo,
        EvalResult.bind]
  · intro u0 h0
    have hop := operand_of_ne u0 context h0
    cases habo : u0.eval_as_borrow_object context with
    | ok o =>
      cases o with
      | some v =>
        cases hap : apply_logical .not (some v) none with
        | ok r =>
          simp [eval_without_stack, eval_units, eval_step_operand context [] u0 hop,
            eval_step_not, habo, hap, EvalResult.bind, push_result]
        | err e =>
          simp [eval_without_stack, eval_units, eval_step_operand context [] u0 hop,
            eval_step_not, habo, hap, EvalResult.bind, push_result]
        | panicked =>
          simp [eval_without_stack, eval_units, eval_step_operand context [] u0 hop,
            eval_step_not, habo, hap, EvalResult.bind, push_result]
      | none => exact absurd habo h0
    | err e =>
      simp [eval_without_stack, eval_units, eval_step_operand context [] u0 hop,
        habo, EvalResult.bind]
    | panicked =>
      simp [eval_without_stack, eval_units, eval_step_operand context [] u0 hop,
        habo, EvalResult.bind]
  · intro u0 u1 l hl h0 h1
    have hop0 := operand_of_ne u0 context h0
    have hop1 := operand_of_ne u1 context h1
    cases habo0 : u0.eval_as_borrow_object context with
    | ok o0 =>
      cases o0 with
      | some v0 =>
        cases habo1 : u1.eval_as_borrow_object context with
        | ok o1 =>
          cases o1 with
          | some v1 =>
            cases hap : apply_logical l (some v0) (some v1) with
            | ok r =>
              simp [eval_without_stack, eval_units, eval_step_operand context [] u0 hop0,
                eval_step_operand context [v0] u1 hop1, eval_step_logical context [v1, v0] l hl,
                habo0, habo1, hap, EvalResult.bind, push_result]
            | err e =>
              simp [eval_without_stack, eval_units, eval_step_operand context [] u0 hop0,
                eval_step_operand context [v0] u1 hop1, eval_step_logical context [v1, v0] l hl,
                habo0, habo1, hap, EvalResult.bind, push_result]
            | panicked =>
              simp [eval_without_stack, eval_units, eval_step_operand context [] u0 hop0,
                eval_step_operand context [v0] u1 hop1, eval_step_logical context [v1, v0] l hl,
                habo0, habo1, hap, EvalResult.bind, push_result]
          | none => exact absurd habo1 h1
        | err e =>
          simp [eval_without_stack, eval_units, eval_step_operand context [] u0 hop0,
            eval_step_operand context [v0] u1 hop1, habo0, habo1, EvalResult.bind]
        | panicked =>
          simp [eval_without_stack, eval_units, eval_step_operand context [] u0 hop0,
            eval_step_operand context [v0] u1 hop1, habo0, habo1, EvalResult.bind]
      | none => exact absurd habo0 h0
    | err e =>
      simp [eval_without_stack, eval_units, eval_step_operand context [] u0 hop0,
        habo0, EvalResult.bind]
    | panicked =>
      simp [eval_without_stack, eval_units, eval_step_operand context [] u0 hop0,
        habo0, EvalResult.bind]
  · intro u0 u1 a h0 h1
    have hop0 := operand_of_ne u0 context h0
    have hop1 := operand_of_ne u1 context h1
    cases habo0 : u0.eval_as_borrow_object context with
    | ok o0 =>
      cases o0 with
      | some v0 =>
        cases habo1 : u1.eval_as_borrow_object context with
        | ok o1 =>
          cases o1 with
          | some v1 =>
            cases hap : apply_arith a (some v0) (some v1) with
            | ok r =>
              simp [eval_without_stack, eval_units, eval_step_operand context [] u0 hop0,
                eval_step_operand context [v0] u1 hop1, eval_step_arith context [v1, v0] a,
                habo0, habo1, hap, EvalResult.bind, push_result]
            | err e =>
              simp [eval_without_stack, eval_units, eval_step_operand context [] u0 hop0,
                eval_step_operand context [v0] u1 hop1, eval_step_arith context [v1, v0] a,
                habo0, habo1, hap, EvalResult.bind, push_result]
            | panicked =>
              simp [eval_without_stack, eval_units, eval_step_operand context [] u0 hop0,
                eval_step_operand context [v0] u1 hop1, eval_step_arith context [v1, v0] a,
                habo0, habo1, hap, EvalResult.bind, push_result]
          | none => exact absurd habo1 h1
        | err e =>
          simp [eval_without_stack, eval_units, eval_step_operand context [] u0 hop0,
            eval_step_operand context [v0] u1 hop1, habo0, habo1, EvalResult.bind]
        | panicked =>
          simp [eval_without_stack, eval_units, eval_step_operand context [] u0 hop0,
            eval_step_operand context [v0] u1 hop1, habo0, habo1, EvalResult.bind]
      | none => exact absurd habo0 h0
    | err e =>
      simp [eval_without_stack, eval_units, eval_step_operand context [] u0 hop0,
        habo0, EvalResult.bind]
    | panicked =>
      simp [eval_without_stack, eval_units, eval_step_operand context [] u0 hop0,
        habo0, EvalResult.bind]

/-- C5 (witness): the amended theorem applied to a concrete well-shaped
three-unit program. -/
theorem c5_witness :
    eval_without_stack [cInt 1, cInt 2, .arith .add] none
      = (eval_units none [cInt 1, cInt 2, .arith .add] []).1 :=
(c5_amended none).2.2.2 (cInt 1) (cInt 2) .add (by decide) (by decide)

/-- C6: in the general path the earlier push is the left operand — for all
integers `a`, `b`, the postfix program `[Const a, Const b, Sub]` evaluates to
`a - b`, and `[Const a, Const b, Div]` to the truncated quotient `a / b`
whenever `b` is nonzero. -/
theorem c6 (a b : Int) (hb : b ≠ 0) :
    (eval_units none [cInt a, cInt b, .arith .sub] []).1
      = .ok (.primitive (.int (a - b)))
    ∧ (eval_units none [cInt a, cInt b, .arith .div] []).1
      = .ok (.primitive (.int (a.tdiv b))) := by
  constructor
  · simp [eval_units, eval_step, cInt, InnerOpr.is_operand,
      InnerOpr.eval_as_borrow_object, apply_arith, Object.as_primitive,
      EvalResult.bind, prim_sub, push_result]
  · simp [eval_units, eval_step, cInt, InnerOpr.is_operand,
      InnerOpr.eval_as_borrow_object, apply_arith, Object.as_primitive,
      EvalResult.bind, prim_div, hb, push_result, EvalResult.map]

/-- C6 (witness): the theorem applied at `a = 7`, `b = 3`. -/
theorem c6_witness :
    (eval_units none [cInt 7, cInt 3, .arith .sub] []).1
      = .ok (.primitive (.int (7 - 3)))
    ∧ (eval_units none [cInt 7, cInt 3, .arith .div] []).1
      = .ok (.primitive (.int (Int.tdiv 7 3))) :=
c6 7 3 (by decide)

/-- C7: integer arithmetic is integer-preserving with truncation toward zero
— `7 / 3` is the integer `2`, `2 / 5 ^ 2` the integer `0` — and a negative
integer exponent promotes to float: `7 ^ -3` is the float `1/343`. -/
theorem c7 :
    Evaluator.eval ⟨[cInt 7, cInt 3, .arith .div], []⟩ none
      = (.ok (.primitive (.int 2)), [])
    ∧ Evaluator.eval ⟨[cInt 2, cInt 5, cInt 2, .arith .exp, .arith .div], []⟩ none
      = (.ok (.primitive (.int 0)), [])
    ∧ Evaluator.eval ⟨[cInt 7, cInt (-3), .arith .exp], []⟩ none
      = (.ok (.primitive (.float ⟨1, 343⟩)), []) := by
  refine ⟨?_, ?_, ?_⟩
  · decide
  · decide
  · decide

/-- C8 (counterexample): the two-unit program `[Const 1, Eq]` has a shape
other than `[operand, Not]`, yet `eval` fails with `MissingOperands`, not
`InvalidExpression`. -/
theorem c8_counterexample :
    (Evaluator.eval ⟨[cInt 1, .logical .eq], []⟩ none).1 = .err .missingOperands
    ∧ (Evaluator.eval ⟨[cInt 1, .logical .eq], []⟩ none).1
        ≠ .err (.invalidExpression ("invalid expression")) := by
  constructor
  · decide
  · decide

/-- C8 (amended): a program of exactly two units whose second unit is not a
logical operator fails with `InvalidExpression` under every context; when
the second unit is a logical operator but the shape is not
`[operand, Not]`, the error is the operand's own or `MissingOperands`
instead. -/
theorem c8_amended (u0 u1 : InnerOpr) (context : Option Context) (s : List Object)
    (h : ∀ l : Logical, u1 ≠ .logical l) :
    (Evaluator.eval ⟨[u0, u1], s⟩ context).1
      = .err (.invalidExpression ("invalid expression")) := by
  cases u1 with
  | logical l => exact absurd rfl (h l)
  | arith a => rw [eval_fast _ _ _ (by simp)]; rfl
  | const c0 => rw [eval_fast _ _ _ (by simp)]; rfl
  | var t p => rw [eval_fast _ _ _ (by simp)]; rfl

/-- C8 (witness): the amended theorem applied to a concrete two-unit
program whose second unit is an arithmetic operator. -/
theorem c8_witness :
    (Evaluator.eval ⟨[cInt 1, .arith .add], []⟩ none).1
      = .err (.invalidExpression ("invalid expression")) :=
c8_amended (cInt 1) (.arith .add) none []
  (fun _ hl => InnerOpr.noConfusion hl)

/-- C9: a program without `Var` units evaluates identically under every
context — constant resolution and operator application never consult the
context. -/
theorem c9 (tree : List InnerOpr) (s : List Object) (context context' : Option Context)
    (h : ∀ u ∈ tree, u.is_var = false) :
    Evaluator.eval ⟨tree, s⟩ context = Evaluator.eval ⟨tree, s⟩ context' := by
  by_cases hl : tree.length ≤ 3
  · rw [eval_fast tree s context hl, eval_fast tree s context' hl,
      eval_without_stack_ctx_free context context' tree h]
  · have h1 : Evaluator.eval ⟨tree, s⟩ context = eval_units context tree [] := by
      simp [Evaluator.eval, hl]
    have h2 : Evaluator.eval ⟨tree, s⟩ context' = eval_units context' tree [] := by
      simp [Evaluator.eval, hl]
    rw [h1, h2, eval_units_ctx_free context context' tree h []]

/-- C9 (witness): the theorem applied to a concrete constant program, the
absent context and the empty context. -/
theorem c9_witness :
    Evaluator.eval ⟨[cInt 1], []⟩ none = Evaluator.eval ⟨[cInt 1], []⟩ (some NoneContext) :=
c9 [cInt 1] [] none (some NoneContext) (by decide)

/-- C10: a program of at most three units takes the fast path, which returns
the stackless result and leaves the scratch stack exactly as it found it —
it neither clears it nor pushes to it. -/
theorem c10 (tree : List InnerOpr) (s : List Object) (context : Option Context)
    (h : tree.length ≤ 3) :
    Evaluator.eval ⟨tree, s⟩ context = (eval_without_stack tree context, s) :=
eval_fast tree s context h

/-- C10 (witness): the theorem applied to a one-unit program over a stale
nonempty scratch stack, which persists across the call. -/
theorem c10_witness :
    Evaluator.eval ⟨[cInt 1], [.primitive (.int 9)]⟩ none
      = (eval_without_stack [cInt 1] none, [.primitive (.int 9)]) :=
c10 [cInt 1] [.primitive (.int 9)] none (by decide)

end GraphRelation
